import Mathlib

/-!
Verification of the code-chunking and session-dispatch pipeline of the
stata_kernel repository.  The kernel entry points (`do_execute`,
`do_is_complete`, `do_complete`, `is_complete` in
`src/stata_kernel/kernel.py`) are embedded directly from the source.
The collaborators they call (`CodeManager`, `StataSession.do`,
`StataMagics`) are not present under `src/`, so those parts are modelled
from the specification, as marked on each definition.

Text is represented as a list of physical lines, each line a list of
characters.  All definitions are executable and structurally recursive so
that concrete runs reduce inside the kernel.
-/

/-- Characters of a string literal, as a list. -/
def chars (s : String) : List Char := s.data

/-- Horizontal whitespace recognised by the line scanner. -/
def wsChar (c : Char) : Bool := c == ' ' || c == '\t'

/-- Drop leading horizontal whitespace. -/
def trimL (l : List Char) : List Char := l.dropWhile wsChar

/-- Drop trailing horizontal whitespace. -/
def trimR (l : List Char) : List Char := (l.reverse.dropWhile wsChar).reverse

/-- Drop whitespace on both ends. -/
def trim (l : List Char) : List Char := trimR (trimL l)

/-- `leads pat s` is true when `s` starts with `pat`. -/
def leads : List Char → List Char → Bool
  | [], _ => true
  | _ :: _, [] => false
  | p :: ps, c :: cs => p == c && leads ps cs

/-- Split a line at the first occurrence of `marker`, returning the text
before the marker and the text after it. -/
def splitAtMarker (marker : List Char) : List Char → Option (List Char × List Char)
  | [] => none
  | c :: cs =>
    if leads marker (c :: cs) then some ([], List.drop marker.length (c :: cs))
    else
      match splitAtMarker marker cs with
      | some pr => some (c :: pr.1, pr.2)
      | none => none

/-- The opening-brace character. -/
def obrace : Char := Char.ofNat 123

/-- The closing-brace character. -/
def cbrace : Char := Char.ofNat 125

/-- The explicit line-continuation marker, three forward slashes. -/
def contMarker : List Char := ['/', '/', '/']

/-- Modelled from the spec: the Tokenizer (part of the missing
`code_manager.CodeManager`) recognises the `///` line-continuation
marker and joins the physical line with the next, discarding the marker
and any trailing comment on that line.  The first component is the list
of joined lines; the second is true when the text ends with an open
continuation (a `///` on the final line). -/
def joinLines : Option (List Char) → List (List Char) → List (List Char) × Bool
  | pending, [] =>
    match pending with
    | some p => ([p], true)
    | none => ([], false)
  | pending, l :: rest =>
    let l' := match pending with
      | some p => p ++ l
      | none => l
    match splitAtMarker contMarker l' with
    | some pr => joinLines (some pr.1) rest
    | none =>
      let r := joinLines none rest
      (l' :: r.1, r.2)

/-- Modelled from the spec: comment stripping of the missing Tokenizer.
Full lines starting with `*` or `//` are comments; a trailing comment
starts at a `//` preceded by whitespace.  String-literal context is not
modelled (no verified claim depends on it). -/
def stripComment (l : List Char) : List Char :=
  let t := trimL l
  if leads ['*'] t then []
  else if leads ['/', '/'] t then []
  else
    match splitAtMarker [' ', '/', '/'] l with
    | some pr => trimR pr.1
    | none => trimR l

/-- The characters of the delimiter directive keyword. -/
def delimChars : List Char := chars "#delimit"

/-- Modelled from the spec: recognise the in-text delimiter directive
`#delimit ;` / `#delimit cr`.  Returns `some true` when it switches to
semicolon mode, `some false` for newline mode, `none` when the line is
not a directive. -/
def delimDirective (s : List Char) : Option Bool :=
  let t := trimL s
  if leads delimChars t then some (leads [';'] (trimL (List.drop 8 t)))
  else none

/-- Modelled from the spec: an opening brace opens a block only when
nothing but whitespace follows it on the line. -/
def openerLine (s : List Char) : Bool :=
  match (trimR s).reverse with
  | [] => false
  | c :: _ => c == obrace

/-- Modelled from the spec: a closing brace closes a block only when it
is preceded and followed only by whitespace on its line. -/
def closerLine (s : List Char) : Bool := trim s == [cbrace]

/-- Classification of one comment-stripped logical line. -/
inductive LineKind
  | directive : Bool → LineKind
  | blank : LineKind
  | opener : LineKind
  | closer : LineKind
  | plain : LineKind
deriving DecidableEq

/-- Classify one joined physical line after comment stripping. -/
def classify (l : List Char) : LineKind :=
  let s := stripComment l
  match delimDirective s with
  | some m => LineKind.directive m
  | none =>
    if s.isEmpty then LineKind.blank
    else if openerLine s then LineKind.opener
    else if closerLine s then LineKind.closer
    else LineKind.plain

/-- True when the joined line is a delimiter directive. -/
def isDirectiveLine (l : List Char) : Bool :=
  match classify l with
  | LineKind.directive _ => true
  | _ => false

/-- Split a line on every semicolon; the last piece is unterminated. -/
def splitOnSemi : List Char → List (List Char)
  | [] => [[]]
  | c :: cs =>
    let r := splitOnSemi cs
    if c == ';' then [] :: r
    else
      match r with
      | [] => [[c]]
      | p :: ps => (c :: p) :: ps

/-- Join buffered partial-statement lines with single spaces. -/
def joinBuf : List (List Char) → List Char
  | [] => []
  | s :: rest =>
    match rest with
    | [] => s
    | _ :: _ => s ++ ' ' :: joinBuf rest

/-- Join completed statements with newlines, the normalised text form. -/
def intercalateNL : List (List Char) → List Char
  | [] => []
  | s :: rest =>
    match rest with
    | [] => s
    | _ :: _ => s ++ '\n' :: intercalateNL rest

/-- Running state of the chunking pass: current brace depth, current
delimiter mode (`true` = semicolon), the buffered lines of the open
statement, and the completed statements in order. -/
structure ChunkState where
  depth : Nat
  sc : Bool
  buf : List (List Char)
  stmts : List (List Char)
deriving DecidableEq

/-- Flush the semicolon-separated pieces of one line in semicolon mode:
every piece before the last terminates a statement, the last piece stays
buffered; empty statements are suppressed. -/
def flushPieces (st : ChunkState) : List (List Char) → ChunkState
  | [] => st
  | p :: rest =>
    match rest with
    | [] =>
      if (trim p).isEmpty then st else { st with buf := st.buf ++ [p] }
    | _ :: _ =>
      let stmt := joinBuf (st.buf ++ [p])
      let st' :=
        if (trim stmt).isEmpty then { st with buf := ([] : List (List Char)) }
        else { st with stmts := st.stmts ++ [stmt], buf := ([] : List (List Char)) }
      flushPieces st' rest

/-- Modelled from the spec: one step of the missing Tokenizer/Chunker.
Directives switch the mode; an opener raises brace depth; a closer
lowers it and, if depth returns to zero, terminates the open block as
one statement; inside a block lines accumulate; at depth zero a line is
one statement in newline mode and is split on semicolons in semicolon
mode; blank and comment-only lines are suppressed. -/
def stepLine (st : ChunkState) (l : List Char) : ChunkState :=
  let s := stripComment l
  match classify l with
  | LineKind.directive m => { st with sc := m }
  | LineKind.blank => st
  | LineKind.opener => { st with depth := st.depth + 1, buf := st.buf ++ [s] }
  | LineKind.closer =>
    if st.depth ≤ 1 then
      { st with depth := st.depth - 1,
                stmts := st.stmts ++ [joinBuf (st.buf ++ [s])],
                buf := ([] : List (List Char)) }
    else { st with depth := st.depth - 1, buf := st.buf ++ [s] }
  | LineKind.plain =>
    if st.depth ≠ 0 then { st with buf := st.buf ++ [s] }
    else if st.sc then flushPieces st (splitOnSemi s)
    else { st with stmts := st.stmts ++ [joinBuf (st.buf ++ [s])],
                   buf := ([] : List (List Char)) }

/-- Result of a chunking pass: the statements, the delimiter mode in
effect at the end of the text, and structural completeness. -/
structure CodeManager where
  statements : List (List Char)
  ends_sc : Bool
  is_complete : Bool
deriving DecidableEq

/-- Modelled from the spec: construction of the missing
`CodeManager(code, sc_delimit_mode)`.  Joins continuations, runs the
line chunker from the inherited delimiter mode, and is complete exactly
when brace depth returns to zero and no continuation is open at end of
text (matching the `do_is_complete` docstring in `kernel.py`). -/
def mkCodeManager (code : List (List Char)) (sc_delimit_mode : Bool) : CodeManager :=
  let jl := joinLines none code
  let fin := List.foldl stepLine
    { depth := 0, sc := sc_delimit_mode, buf := [], stmts := [] } jl.1
  { statements := fin.stmts ++ (if fin.buf.isEmpty then [] else [joinBuf fin.buf])
    ends_sc := fin.sc
    is_complete := (fin.depth == 0) && !jl.2 }

/-- Modelled from the spec: the fingerprint of a ChunkPlan is a
deterministic digest of the normalised concatenated statement text; the
hash algorithm itself is left open by the spec (§9), so it is modelled
as an injective digest of the normalised bytes. -/
def md5hash (t : List Char) : List Char := t

/-- Modelled from the spec: `CodeManager.get_text` returns the text to
run, its fingerprint, and the text excluded from hashing and execution.
The excluded region comes from magics payload routing, which no verified
claim exercises, so it is modelled as empty. -/
def CodeManager.get_text (cm : CodeManager) : List Char × List Char × List Char :=
  (intercalateNL cm.statements, md5hash (intercalateNL cm.statements), [])

/-- One step of the brace-depth count: depth rises on an opener line,
falls (saturating at zero) on a closer line, and is otherwise unchanged. -/
def braceDepthStep (d : Nat) (l : List Char) : Nat :=
  match classify l with
  | LineKind.opener => d + 1
  | LineKind.closer => d - 1
  | _ => d

/-- Signed brace contribution of one joined line. -/
def braceTally (l : List Char) : Int :=
  match classify l with
  | LineKind.opener => 1
  | LineKind.closer => -1
  | _ => 0

/-- The Dyck condition on the running signed brace depth: it never goes
negative and ends at zero. -/
def runningOk : Int → List (List Char) → Bool
  | d, [] => decide (d = 0)
  | d, l :: ls => decide (0 ≤ d + braceTally l) && runningOk (d + braceTally l) ls

/-- A text has balanced braces when its joined lines satisfy the Dyck
condition. -/
def balancedBraces (code : List (List Char)) : Bool :=
  runningOk 0 (joinLines none code).1

/-- A text contains no delimiter-switch directive. -/
def noDirective (code : List (List Char)) : Bool :=
  (joinLines none code).1.all fun l => !isDirectiveLine l

/-- The number of opening braces left unmatched at the end of the text. -/
def unmatchedOpen (code : List (List Char)) : Nat :=
  List.foldl braceDepthStep 0 (joinLines none code).1

/-- The kernel state visible to the embedded methods: the persistent
delimiter mode, the execution counter maintained by the Jupyter base
class, and the graph registry. -/
structure KernelState where
  sc_delimit_mode : Bool
  execution_count : Nat
  graphs : List (List Char)
deriving DecidableEq

/-- The dictionary `do_execute` returns.  `none` in an optional field
means the key is absent from the dictionary. -/
structure ExecuteResult where
  status : String
  execution_count : Option Nat := none
  payload : Option (List String) := none
  user_expressions : Option (List (String × String)) := none
deriving DecidableEq

/-- A `stream` message sent to the front-end over the iopub socket. -/
structure StreamMsg where
  name : String
  text : String
deriving DecidableEq

/-- Trace of core-pipeline invocations performed by one submission:
a chunking pass (`CodeManager` construction) and a dispatch
(`stata.do`). -/
inductive CoreEvent
  | chunked : List (List Char) → Bool → CoreEvent
  | dispatched : List Char → List Char → CoreEvent
deriving DecidableEq

/-- Behaviour of the collaborators `do_execute` calls and that live
outside `src/`: the magic interceptor (the code it returns and the
quit-early response it may set) and the dispatch return code of
`stata.do`. -/
structure Collab where
  magicTransform : List (List Char) → List (List Char)
  magicQuitEarly : List (List Char) → Option ExecuteResult
  stataDo : List Char → List Char → Nat

/-- `StataKernel.is_complete` from `kernel.py`: constructs a
`CodeManager` from the code and the current persistent delimiter mode
and reads its completeness flag. -/
def is_complete (st : KernelState) (code : List (List Char)) : Bool :=
  (mkCodeManager code st.sc_delimit_mode).is_complete

/-- `StataKernel.do_execute` from `kernel.py`.  Returns the response
dictionary, the kernel state after the call, the stream messages sent,
and the trace of core-pipeline invocations.  Mirrors the source: an
incomplete submission returns status `error` at once; a magic may
quit early with its own response; otherwise the code is chunked and
dispatched, and on the non-silent path only, the delimiter-change
notification is sent and the persistent mode is updated. -/
def do_execute (cb : Collab) (st : KernelState) (code : List (List Char))
    (silent : Bool) : ExecuteResult × KernelState × List StreamMsg × List CoreEvent :=
  if is_complete st code then
    let code2 := cb.magicTransform code
    match cb.magicQuitEarly code with
    | some resp => (resp, st, [], [])
    | none =>
      let cm := mkCodeManager code2 st.sc_delimit_mode
      let gt := cm.get_text
      let rc := cb.stataDo gt.1 gt.2.1
      let events := [CoreEvent.chunked code2 st.sc_delimit_mode,
                     CoreEvent.dispatched gt.1 gt.2.1]
      let ro : ExecuteResult :=
        if rc ≠ 0 then
          { status := "error", execution_count := some st.execution_count }
        else
          { status := "ok", execution_count := some st.execution_count,
            payload := some [], user_expressions := some [] }
      if silent then (ro, st, [], events)
      else
        let msgs :=
          if cm.ends_sc ≠ st.sc_delimit_mode then
            [{ name := "stdout",
               text := "delimiter now " ++ (if cm.ends_sc then ";" else "cr") : StreamMsg }]
          else []
        (ro, { st with sc_delimit_mode := cm.ends_sc }, msgs, events)
  else
    ({ status := "error", execution_count := some st.execution_count }, st, [], [])

/-- The dictionary `do_is_complete` returns. -/
structure IsCompleteResult where
  status : String
  indent : Option String := none
deriving DecidableEq

/-- `StataKernel.do_is_complete` from `kernel.py`: reports `complete`
or `incomplete` with an indent hint.  The returned state and event
trace record that the method mutates nothing and dispatches nothing. -/
def do_is_complete (st : KernelState) (code : List (List Char)) :
    IsCompleteResult × KernelState × List CoreEvent :=
  if is_complete st code then ({ status := "complete" }, st, [])
  else ({ status := "incomplete", indent := some "    " }, st, [])

/-- Per-statement outcome recorded by the Session Dispatcher. -/
inductive StmtOutcome
  | success : StmtOutcome
  | failed : StmtOutcome
  | unattempted : StmtOutcome
deriving DecidableEq

/-- Modelled from the spec: the Session Dispatcher
(`stata_session.StataSession.do`, not under `src/`) sends the plan's
statements in order, halts the remaining statements of the plan on the
first non-zero return code, and aggregates an overall return code that
is zero only if every statement completed. -/
def dispatchPlan (exec : List Char → Nat) : List (List Char) → Nat × List StmtOutcome
  | [] => (0, [])
  | s :: rest =>
    if exec s ≠ 0 then
      (exec s, StmtOutcome.failed :: rest.map fun _ => StmtOutcome.unattempted)
    else
      let r := dispatchPlan exec rest
      (r.1, StmtOutcome.success :: r.2)

/-- Collaborator behaviour with no magic interception and successful
dispatch. -/
def cbNone : Collab :=
  { magicTransform := fun c => c
    magicQuitEarly := fun _ => none
    stataDo := fun _ _ => 0 }

/-- Collaborator behaviour with no magic interception and failing
dispatch. -/
def cbFail : Collab :=
  { cbNone with stataDo := fun _ _ => 1 }

/-- A front-end response object produced by a quitting magic. -/
def rQuit : ExecuteResult :=
  { status := "ok", execution_count := some 7 }

/-- Collaborator behaviour in which the magic interceptor quits early. -/
def cbQuit : Collab :=
  { cbNone with magicQuitEarly := fun _ => some rQuit }

/-- A kernel state in newline-delimiter mode. -/
def st0 : KernelState :=
  { sc_delimit_mode := false, execution_count := 1, graphs := [] }

/-- A statement executor that fails exactly on the statement `bad`. -/
def execW (s : List Char) : Nat :=
  if s = chars "bad" then 1 else 0


theorem flushPieces_cons_cons (st : ChunkState) (p q : List Char)
    (rest : List (List Char)) :
    flushPieces st (p :: q :: rest) =
      flushPieces
        (if (trim (joinBuf (st.buf ++ [p]))).isEmpty
          then { st with buf := ([] : List (List Char)) }
          else { st with stmts := st.stmts ++ [joinBuf (st.buf ++ [p])],
                         buf := ([] : List (List Char)) }) (q :: rest) := rfl

theorem flushPieces_depth : ∀ (ps : List (List Char)) (st : ChunkState),
    (flushPieces st ps).depth = st.depth := by
  intro ps
  induction ps with
  | nil => intro st; rfl
  | cons p rest ih =>
    intro st
    cases rest with
    | nil =>
      simp only [flushPieces]
      split <;> rfl
    | cons q rest' =>
      rw [flushPieces_cons_cons, ih]
      split <;> rfl

theorem flushPieces_sc : ∀ (ps : List (List Char)) (st : ChunkState),
    (flushPieces st ps).sc = st.sc := by
  intro ps
  induction ps with
  | nil => intro st; rfl
  | cons p rest ih =>
    intro st
    cases rest with
    | nil =>
      simp only [flushPieces]
      split <;> rfl
    | cons q rest' =>
      rw [flushPieces_cons_cons, ih]
      split <;> rfl

theorem stepLine_depth (st : ChunkState) (l : List Char) :
    (stepLine st l).depth = braceDepthStep st.depth l := by
  cases h : classify l <;> simp only [stepLine, braceDepthStep, h]
  · split <;> rfl
  · split
    · rfl
    · split
      · exact flushPieces_depth _ _
      · rfl

theorem stepLine_sc (st : ChunkState) (l : List Char)
    (h : isDirectiveLine l = false) : (stepLine st l).sc = st.sc := by
  unfold isDirectiveLine at h
  cases hc : classify l <;> simp only [hc] at h <;> simp only [stepLine, hc]
  · exact absurd h (by simp)
  · split <;> rfl
  · split
    · rfl
    · split
      · exact flushPieces_sc _ _
      · rfl

theorem foldl_stepLine_depth : ∀ (ls : List (List Char)) (st : ChunkState),
    (List.foldl stepLine st ls).depth = List.foldl braceDepthStep st.depth ls := by
  intro ls
  induction ls with
  | nil => intro st; rfl
  | cons l ls ih =>
    intro st
    simp only [List.foldl_cons]
    rw [ih, stepLine_depth]

theorem foldl_stepLine_sc : ∀ (ls : List (List Char)) (st : ChunkState),
    (∀ l ∈ ls, isDirectiveLine l = false) →
    (List.foldl stepLine st ls).sc = st.sc := by
  intro ls
  induction ls with
  | nil => intro st _; rfl
  | cons l ls ih =>
    intro st h
    simp only [List.foldl_cons]
    rw [ih _ fun x hx => h x (List.mem_cons_of_mem _ hx),
        stepLine_sc _ _ (h l (List.mem_cons_self _ _))]

theorem runningOk_foldl : ∀ (ls : List (List Char)) (d : Nat),
    runningOk (d : Int) ls = true → List.foldl braceDepthStep d ls = 0 := by
  intro ls
  induction ls with
  | nil =>
    intro d h
    simp only [runningOk, decide_eq_true_eq] at h
    exact_mod_cast h
  | cons l ls ih =>
    intro d h
    simp only [runningOk, Bool.and_eq_true, decide_eq_true_eq] at h
    obtain ⟨hnn, hrest⟩ := h
    simp only [List.foldl_cons]
    unfold braceDepthStep
    unfold braceTally at hnn hrest
    cases hc : classify l <;> simp only [hc] at hnn hrest ⊢
    · exact ih d (by simpa using hrest)
    · exact ih d (by simpa using hrest)
    · have hcast : ((d + 1 : Nat) : Int) = (d : Int) + 1 := by push_cast; ring
      exact ih (d + 1) (by rw [hcast]; exact hrest)
    · have hd : 1 ≤ d := by omega
      have hcast : ((d - 1 : Nat) : Int) = (d : Int) + (-1) := by omega
      exact ih (d - 1) (by rw [hcast]; exact hrest)
    · exact ih d (by simpa using hrest)

theorem do_execute_dispatched (cb : Collab) (st : KernelState)
    (code : List (List Char)) (silent : Bool)
    (h1 : is_complete st code = true)
    (h2 : cb.magicQuitEarly code = none) :
    do_execute cb st code silent =
      (let cm := mkCodeManager (cb.magicTransform code) st.sc_delimit_mode
       let gt := cm.get_text
       let rc := cb.stataDo gt.1 gt.2.1
       let events := [CoreEvent.chunked (cb.magicTransform code) st.sc_delimit_mode,
                      CoreEvent.dispatched gt.1 gt.2.1]
       let ro : ExecuteResult :=
         if rc ≠ 0 then
           { status := "error", execution_count := some st.execution_count }
         else
           { status := "ok", execution_count := some st.execution_count,
             payload := some [], user_expressions := some [] }
       if silent then (ro, st, [], events)
       else
         let msgs :=
           if cm.ends_sc ≠ st.sc_delimit_mode then
             [{ name := "stdout",
                text := "delimiter now " ++ (if cm.ends_sc then ";" else "cr") : StreamMsg }]
           else []
         (ro, { st with sc_delimit_mode := cm.ends_sc }, msgs, events)) := by
  unfold do_execute
  rw [h1, h2]
  rfl

theorem do_execute_intercepted (cb : Collab) (st : KernelState)
    (code : List (List Char)) (silent : Bool) (r : ExecuteResult)
    (h1 : is_complete st code = true)
    (h2 : cb.magicQuitEarly code = some r) :
    do_execute cb st code silent = (r, st, [], []) := by
  unfold do_execute
  rw [h1, h2]
  rfl

theorem do_execute_incomplete (cb : Collab) (st : KernelState)
    (code : List (List Char)) (silent : Bool)
    (h1 : is_complete st code = false) :
    do_execute cb st code silent =
      ({ status := "error", execution_count := some st.execution_count }, st, [], []) := by
  unfold do_execute
  rw [h1]
  rfl

/-- Claim C1 (counterexample): for the silent submission `#delimit ;`
the persistent flag `sc_delimit_mode` is not written with `cm.ends_sc`
after chunking — `do_execute` returns before the write when `silent` is
true, so the claim's clause `regardless of the submission's silent flag`
fails. -/
theorem C1_silent_skips_mode_write_cex :
    ((do_execute cbNone st0 [chars "#delimit ;"] true).2.1).sc_delimit_mode ≠
      (mkCodeManager (cbNone.magicTransform [chars "#delimit ;"])
        st0.sc_delimit_mode).ends_sc := by
  decide

/-- Claim C1 (amended): for every dispatched submission, when the
submission is not silent, `sc_delimit_mode` is written exactly once
after chunking with the mode in effect at the end of the processed text
(`cm.ends_sc`), regardless of the dispatch return code; when the
submission is silent, it is left unchanged.  No other kernel state is
written in either case. -/
theorem C1_mode_write_after_chunking (cb : Collab) (st : KernelState)
    (code : List (List Char)) (silent : Bool)
    (h1 : is_complete st code = true) (h2 : cb.magicQuitEarly code = none) :
    ((do_execute cb st code silent).2.1).sc_delimit_mode =
      (if silent then st.sc_delimit_mode
       else (mkCodeManager (cb.magicTransform code) st.sc_delimit_mode).ends_sc) ∧
    ((do_execute cb st code silent).2.1).execution_count = st.execution_count ∧
    ((do_execute cb st code silent).2.1).graphs = st.graphs := by
  rw [do_execute_dispatched cb st code silent h1 h2]
  cases silent <;> simp

/-- Claim C1 (witness): a non-silent `#delimit ;` submission ends with
the persistent flag set to semicolon mode. -/
theorem C1_mode_write_witness :
    ((do_execute cbNone st0 [chars "#delimit ;"] false).2.1).sc_delimit_mode = true := by
  have h := C1_mode_write_after_chunking cbNone st0 [chars "#delimit ;"] false
    (by decide) (by decide)
  rw [h.1]
  decide

/-- Claim C2 (counterexample): a silent `#delimit ;` submission changes
the delimiter mode in effect at the end of the text, yet no
`delimiter now` stream notification is sent — `do_execute` returns
before sending when `silent` is true, so the claim's clause
`independently of the silent flag` fails. -/
theorem C2_silent_no_notification_cex :
    (mkCodeManager (cbNone.magicTransform [chars "#delimit ;"])
        st0.sc_delimit_mode).ends_sc ≠ st0.sc_delimit_mode ∧
    (do_execute cbNone st0 [chars "#delimit ;"] true).2.2.1 = [] := by
  decide

/-- Claim C2 (amended): for every dispatched non-silent submission whose
ending delimiter mode differs from the mode at its start, exactly the
`delimiter now` stream notification is sent, independently of the
dispatch return code; a silent submission sends no stream message. -/
theorem C2_delimiter_notification (cb : Collab) (st : KernelState)
    (code : List (List Char))
    (h1 : is_complete st code = true) (h2 : cb.magicQuitEarly code = none)
    (hne : (mkCodeManager (cb.magicTransform code) st.sc_delimit_mode).ends_sc ≠
      st.sc_delimit_mode) :
    (do_execute cb st code false).2.2.1 =
      [{ name := "stdout",
         text := "delimiter now " ++
           (if (mkCodeManager (cb.magicTransform code) st.sc_delimit_mode).ends_sc
            then ";" else "cr") }] ∧
    (do_execute cb st code true).2.2.1 = [] := by
  rw [do_execute_dispatched cb st code false h1 h2,
      do_execute_dispatched cb st code true h1 h2]
  simp [hne]

/-- Claim C2 (witness): a non-silent `#delimit ;` submission in newline
mode sends exactly the notification `delimiter now ;`. -/
theorem C2_delimiter_notification_witness :
    (do_execute cbNone st0 [chars "#delimit ;"] false).2.2.1 =
      [{ name := "stdout", text := "delimiter now ;" }] := by
  have h := C2_delimiter_notification cbNone st0 [chars "#delimit ;"]
    (by decide) (by decide) (by decide)
  rw [h.1]
  decide

/-- Claim C3 (counterexample): for the structurally incomplete
submission consisting of a single opening brace, `do_execute` reports
status `error`, so the claim's clause `do_execute does not report
status error for mere incompleteness` fails (`kernel.py` line 48
returns the error dictionary whenever `is_complete` is false). -/
theorem C3_incomplete_reported_error_cex :
    is_complete st0 [[obrace]] = false ∧
    (do_execute cbNone st0 [[obrace]] false).1.status = "error" := by
  decide

/-- Claim C3 (amended): for every structurally incomplete submission,
`do_is_complete` reports the distinct status `incomplete` (with an
indent hint and without raising); `do_execute`, however, does report
status `error` for the same text, without chunking or dispatching it. -/
theorem C3_incomplete_status (cb : Collab) (st : KernelState)
    (code : List (List Char)) (silent : Bool)
    (h : is_complete st code = false) :
    (do_is_complete st code).1 = { status := "incomplete", indent := some "    " } ∧
    (do_execute cb st code silent).1 =
      { status := "error", execution_count := some st.execution_count } := by
  constructor
  · unfold do_is_complete
    rw [h]
    rfl
  · rw [do_execute_incomplete cb st code silent h]

/-- Claim C3 (witness): on the unterminated opening brace,
`do_is_complete` answers `incomplete` while `do_execute` answers
`error`. -/
theorem C3_incomplete_status_witness :
    (do_is_complete st0 [[obrace]]).1.status = "incomplete" ∧
    (do_execute cbFail st0 [[obrace]] true).1.status = "error" := by
  have h := C3_incomplete_status cbFail st0 [[obrace]] true (by decide)
  exact ⟨by rw [h.1], by rw [h.2]⟩

/-- Claim C4 (confirmed): for every dispatched submission, `do_execute`
returns status `error` exactly when the dispatch return code is
non-zero, and status `ok` together with the execution count when the
return code is zero. -/
theorem C4_status_error_iff_rc (cb : Collab) (st : KernelState)
    (code : List (List Char)) (silent : Bool)
    (h1 : is_complete st code = true) (h2 : cb.magicQuitEarly code = none) :
    ((do_execute cb st code silent).1.status = "error" ↔
      cb.stataDo (mkCodeManager (cb.magicTransform code) st.sc_delimit_mode).get_text.1
        (mkCodeManager (cb.magicTransform code) st.sc_delimit_mode).get_text.2.1 ≠ 0) ∧
    (cb.stataDo (mkCodeManager (cb.magicTransform code) st.sc_delimit_mode).get_text.1
        (mkCodeManager (cb.magicTransform code) st.sc_delimit_mode).get_text.2.1 = 0 →
      (do_execute cb st code silent).1.status = "ok" ∧
      (do_execute cb st code silent).1.execution_count = some st.execution_count) := by
  rw [do_execute_dispatched cb st code silent h1 h2]
  by_cases hrc : cb.stataDo
      (mkCodeManager (cb.magicTransform code) st.sc_delimit_mode).get_text.1
      (mkCodeManager (cb.magicTransform code) st.sc_delimit_mode).get_text.2.1 = 0 <;>
    cases silent <;> simp [hrc]

/-- Claim C4 (witness): a failing dispatch yields status `error` and a
successful one yields status `ok` on the same submission. -/
theorem C4_status_witness :
    (do_execute cbFail st0 [chars "di 1"] false).1.status = "error" ∧
    (do_execute cbNone st0 [chars "di 1"] false).1.status = "ok" := by
  have h1 := C4_status_error_iff_rc cbFail st0 [chars "di 1"] false (by decide) (by decide)
  have h2 := C4_status_error_iff_rc cbNone st0 [chars "di 1"] false (by decide) (by decide)
  exact ⟨h1.1.mpr (by decide), (h2.2 (by decide)).1⟩

/-- Claim C5 (confirmed): when the magic interceptor signals
quit-early, `do_execute` returns the interceptor's response object
directly, the kernel state is unchanged, no stream message is sent, and
the trace of core-pipeline invocations is empty — neither a chunking
pass nor a dispatch happens. -/
theorem C5_quit_early_bypass (cb : Collab) (st : KernelState)
    (code : List (List Char)) (silent : Bool) (r : ExecuteResult)
    (h1 : is_complete st code = true)
    (h2 : cb.magicQuitEarly code = some r) :
    do_execute cb st code silent = (r, st, [], ([] : List CoreEvent)) :=
  do_execute_intercepted cb st code silent r h1 h2

/-- Claim C5 (witness): a quitting magic returns its own response with
no chunking and no dispatch. -/
theorem C5_quit_early_witness :
    do_execute cbQuit st0 [chars "di 1"] false = (rQuit, st0, [], []) :=
  C5_quit_early_bypass cbQuit st0 [chars "di 1"] false rQuit (by decide) (by decide)

/-- Claim C6 (confirmed): `do_is_complete` (built on the `is_complete`
predicate) is side-effect-free: it returns the kernel state unchanged —
in particular `sc_delimit_mode` and `graphs` — performs no dispatch and
no chunking-pass invocation, and merely reports completeness of the
text under the current delimiter mode. -/
theorem C6_is_complete_pure (st : KernelState) (code : List (List Char)) :
    (do_is_complete st code).2.1 = st ∧
    (do_is_complete st code).2.2 = ([] : List CoreEvent) ∧
    (do_is_complete st code).1.status =
      (if is_complete st code then "complete" else "incomplete") := by
  unfold do_is_complete
  split <;> simp_all

/-- Claim C10 (confirmed): for every dispatched submission the shape of
the result dictionary depends on the outcome: return code zero gives
status `ok`, the execution count, an empty payload list and an empty
user-expressions dictionary; a non-zero return code gives only status
`error` and the execution count, the other keys absent. -/
theorem C10_result_shape (cb : Collab) (st : KernelState)
    (code : List (List Char)) (silent : Bool)
    (h1 : is_complete st code = true) (h2 : cb.magicQuitEarly code = none) :
    (cb.stataDo (mkCodeManager (cb.magicTransform code) st.sc_delimit_mode).get_text.1
        (mkCodeManager (cb.magicTransform code) st.sc_delimit_mode).get_text.2.1 = 0 →
      (do_execute cb st code silent).1 =
        { status := "ok", execution_count := some st.execution_count,
          payload := some [], user_expressions := some [] }) ∧
    (cb.stataDo (mkCodeManager (cb.magicTransform code) st.sc_delimit_mode).get_text.1
        (mkCodeManager (cb.magicTransform code) st.sc_delimit_mode).get_text.2.1 ≠ 0 →
      (do_execute cb st code silent).1 =
        { status := "error", execution_count := some st.execution_count }) := by
  rw [do_execute_dispatched cb st code silent h1 h2]
  by_cases hrc : cb.stataDo
      (mkCodeManager (cb.magicTransform code) st.sc_delimit_mode).get_text.1
      (mkCodeManager (cb.magicTransform code) st.sc_delimit_mode).get_text.2.1 = 0 <;>
    cases silent <;> simp [hrc]

/-- Claim C10 (witness): the two result shapes on a concrete
submission, under a successful and under a failing dispatch. -/
theorem C10_result_shape_witness :
    (do_execute cbNone st0 [chars "di 1"] false).1 =
      { status := "ok", execution_count := some 1,
        payload := some [], user_expressions := some [] } ∧
    (do_execute cbFail st0 [chars "di 1"] false).1 =
      { status := "error", execution_count := some 1 } := by
  have h1 := C10_result_shape cbNone st0 [chars "di 1"] false (by decide) (by decide)
  have h2 := C10_result_shape cbFail st0 [chars "di 1"] false (by decide) (by decide)
  exact ⟨h1.1 (by decide), h2.2 (by decide)⟩

/-- Claim C7 (counterexample): the text `di 1 + ///` has balanced
braces and contains no mode-switch directive, yet `is_complete` is
false because of the open line continuation at end of text, so the
claim's first conjunct fails as stated. -/
theorem C7_balanced_continuation_cex :
    balancedBraces [chars "di 1 + ///"] = true ∧
    noDirective [chars "di 1 + ///"] = true ∧
    (mkCodeManager [chars "di 1 + ///"] false).is_complete = false := by
  decide

/-- Claim C7 (amended): for all text with balanced braces, no
mode-switch directive and no open line continuation at end of text, the
chunker reports completeness and its ending delimiter mode equals the
input mode; for all text with an odd number of unmatched opening
braces, completeness is reported false. -/
theorem C7_balanced_complete (code : List (List Char)) (sc0 : Bool) :
    (balancedBraces code = true → noDirective code = true →
      (joinLines none code).2 = false →
      (mkCodeManager code sc0).is_complete = true ∧
      (mkCodeManager code sc0).ends_sc = sc0) ∧
    (Odd (unmatchedOpen code) → (mkCodeManager code sc0).is_complete = false) := by
  have hdepth : (List.foldl stepLine
        { depth := 0, sc := sc0, buf := [], stmts := [] } (joinLines none code).1).depth
      = List.foldl braceDepthStep 0 (joinLines none code).1 :=
    foldl_stepLine_depth _ _
  constructor
  · intro hbal hnod hcont
    have h0 : List.foldl braceDepthStep 0 (joinLines none code).1 = 0 := by
      have hr := runningOk_foldl (joinLines none code).1 0
      simp only [Nat.cast_zero] at hr
      exact hr hbal
    have hsc : (List.foldl stepLine
        { depth := 0, sc := sc0, buf := [], stmts := [] } (joinLines none code).1).sc = sc0 := by
      apply foldl_stepLine_sc
      intro l hl
      have hx := (List.all_eq_true.mp hnod) l hl
      simpa using hx
    constructor
    · simp only [mkCodeManager]
      rw [hdepth, h0, hcont]
      rfl
    · simp only [mkCodeManager]
      exact hsc
  · intro hodd
    have hne : unmatchedOpen code ≠ 0 := by
      rcases hodd with ⟨k, hk⟩
      omega
    unfold unmatchedOpen at hne
    simp only [mkCodeManager]
    rw [hdepth]
    simp [hne]

/-- Claim C7 (witness): the balanced directive-free text `di 1` is
complete and keeps newline mode; the single opening brace, one
unmatched opener, is incomplete. -/
theorem C7_balanced_witness :
    ((mkCodeManager [chars "di 1"] false).is_complete = true ∧
     (mkCodeManager [chars "di 1"] false).ends_sc = false) ∧
    (mkCodeManager [[obrace]] false).is_complete = false :=
  ⟨(C7_balanced_complete [chars "di 1"] false).1 (by decide) (by decide) (by decide),
   (C7_balanced_complete [[obrace]] false).2 (by decide)⟩

/-- Claim C8 (confirmed): the chunk fingerprint is deterministic — for
any two submissions, under any inherited delimiter modes, the
fingerprints returned by `get_text` agree exactly when the normalised
concatenated statement texts agree; in particular, a stripped trailing
comment leaves the fingerprint unchanged while a single non-comment
character change alters it. -/
theorem C8_fingerprint_deterministic :
    (∀ (c1 c2 : List (List Char)) (m1 m2 : Bool),
      (mkCodeManager c1 m1).get_text.2.1 = (mkCodeManager c2 m2).get_text.2.1 ↔
      (mkCodeManager c1 m1).get_text.1 = (mkCodeManager c2 m2).get_text.1) ∧
    (mkCodeManager [chars "di 1   // a comment"] false).get_text.2.1 =
      (mkCodeManager [chars "di 1"] false).get_text.2.1 ∧
    (mkCodeManager [chars "di 2"] false).get_text.2.1 ≠
      (mkCodeManager [chars "di 1"] false).get_text.2.1 := by
  refine ⟨fun c1 c2 m1 m2 => ?_, by decide, by decide⟩
  unfold CodeManager.get_text md5hash
  exact Iff.rfl

/-- Claim C9 (confirmed): the Session Dispatcher halts the remaining
statements of a plan on the first failing statement and returns a
non-zero overall code whenever some statement fails; on a plan of three
statements whose second fails it records exactly one successful, one
failed and one unattempted statement. -/
theorem C9_halt_on_first_error (exec : List Char → Nat) :
    (∀ stmts : List (List Char), (∃ s ∈ stmts, exec s ≠ 0) →
      (dispatchPlan exec stmts).1 ≠ 0) ∧
    (∀ a b c : List Char, exec a = 0 → exec b ≠ 0 →
      dispatchPlan exec [a, b, c] =
        (exec b, [StmtOutcome.success, StmtOutcome.failed, StmtOutcome.unattempted])) := by
  constructor
  · intro stmts
    induction stmts with
    | nil => intro h; simp at h
    | cons s rest ih =>
      intro h
      by_cases hs : exec s = 0
      · have hrest : ∃ x ∈ rest, exec x ≠ 0 := by
          rcases h with ⟨x, hx, hne⟩
          rcases List.mem_cons.mp hx with rfl | hmem
          · exact absurd hs hne
          · exact ⟨x, hmem, hne⟩
        simp only [dispatchPlan, hs, ne_eq, not_true_eq_false, if_false]
        simpa using ih hrest
      · simp [dispatchPlan, hs]
  · intro a b c ha hb
    simp [dispatchPlan, ha, hb]

/-- Claim C9 (witness): a three-statement plan whose second statement
fails yields the failing return code and the outcomes success, failed,
unattempted. -/
theorem C9_halt_witness :
    dispatchPlan execW [chars "a", chars "bad", chars "c"] =
      (execW (chars "bad"),
       [StmtOutcome.success, StmtOutcome.failed, StmtOutcome.unattempted]) :=
  (C9_halt_on_first_error execW).2 (chars "a") (chars "bad") (chars "c")
    (by decide) (by decide)
